import Mathlib

/-!
Shallow embedding of `docx/section.py`: the `Sections` sequence, `Section`
proxy, and the `_BaseHeaderFooter` / `_Footer` / `_Header` header-footer
proxies with their linked-state logic.

Modelling conventions:
* A `sectPr` (section-properties element) is modelled by `SectPr`, holding the
  optional primary header reference and optional primary footer reference
  (`get_headerReference(WD_HEADER_FOOTER.PRIMARY)` / `get_footerReference`).
  Reference ids (`rId`) are natural numbers.
* The document is a `DocState`: the list of `sectPr` elements in document
  order (`sectPr_lst`; `preceding_sectPr` of the element at index `i+1` is the
  element at index `i`, and the element at index 0 has none), together with
  the document part's store of header parts.  A header part is identified by
  its reference id.  `dropCalls` and `addCalls` record the calls made to
  `document_part.drop_header_part` and `document_part.add_header_part`, so
  that "exactly one part-store call" claims are observable.
* A `_Header` / `_Footer` proxy on a section is represented by the index of
  its `sectPr` in the document; operations that mutate take and return a
  `DocState`.  Fallible operations return `Option`.
-/

/-- A `w:sectPr` element, reduced to the fields the header/footer logic
reads: the primary header reference and primary footer reference
(`rId` or absent). -/
structure SectPr where
  headerRef : Option Nat
  footerRef : Option Nat
deriving Repr, DecidableEq

/-- Document state: the `sectPr` elements in document order plus the
document part acting as part store.  `parts` is the set (as a list) of
reference ids that currently have a header part; `nextId` is the next
fresh reference id minted by `add_header_part`; `dropCalls` and `addCalls`
log calls to `drop_header_part` and `add_header_part`. -/
structure DocState where
  sects : List SectPr
  parts : List Nat
  nextId : Nat
  dropCalls : List Nat
  addCalls : Nat
deriving Repr, DecidableEq

/-- Replace the element at index `i` by `f` of it; identity when `i` is out
of range (a real proxy always wraps an element that is present). -/
def updateAt (xs : List SectPr) (i : Nat) (f : SectPr → SectPr) : List SectPr :=
  match xs, i with
  | [], _ => []
  | x :: rest, 0 => f x :: rest
  | x :: rest, Nat.succ j => x :: updateAt rest j f

/-- `sectPr.get_headerReference(WD_HEADER_FOOTER.PRIMARY)` for the section at
index `i`: the primary header reference id, or `none`. -/
def get_headerReference (s : DocState) (i : Nat) : Option Nat :=
  (s.sects.get? i).bind SectPr.headerRef

/-- `sectPr.get_footerReference(WD_HEADER_FOOTER.PRIMARY)` for the section at
index `i`. -/
def get_footerReference (s : DocState) (i : Nat) : Option Nat :=
  (s.sects.get? i).bind SectPr.footerRef

/-- `_Header._has_header_part`: True if a header is explicitly defined for
this section, i.e. `get_headerReference` is not `None`. -/
def has_header_part (s : DocState) (i : Nat) : Bool :=
  (get_headerReference s i).isSome

/-- `_Footer._has_definition`: True if a footer is defined for this section,
i.e. `get_footerReference` is not `None`. -/
def footer_has_definition (s : DocState) (i : Nat) : Bool :=
  (get_footerReference s i).isSome

/-- `_Header.is_linked_to_previous` (getter): absence of a header part
indicates linked behavior. -/
def header_is_linked_to_previous (s : DocState) (i : Nat) : Bool :=
  !has_header_part s i

/-- `_Footer.is_linked_to_previous` (getter, inherited from
`_BaseHeaderFooter`): absence of a footer definition indicates linked
behavior. -/
def footer_is_linked_to_previous (s : DocState) (i : Nat) : Bool :=
  !footer_has_definition s i

/-- The two concrete header/footer proxy kinds. -/
inductive HdrFtr where
  | header
  | footer
deriving Repr, DecidableEq

/-- `_BaseHeaderFooter._has_definition`: raises
`NotImplementedError("must be implemented by each subclass")`. -/
def base_has_definition : Except String Bool :=
  Except.error "must be implemented by each subclass"

/-- Python attribute resolution of `_has_definition` on a proxy instance:
`_Footer` overrides it; `_Header` does not override `_has_definition`
(it defines `_has_header_part` instead), so a `_Header` instance inherits
the base class's raising implementation. -/
def _has_definition (k : HdrFtr) (s : DocState) (i : Nat) : Except String Bool :=
  match k with
  | HdrFtr.footer => Except.ok (footer_has_definition s i)
  | HdrFtr.header => base_has_definition

/-- `document_part.add_header_part()`: creates a new header part in the part
store, minting a fresh reference id, and returns it (the part is identified
by its id).  The call is logged in `addCalls`. -/
def document_part_add_header_part (s : DocState) : DocState × Nat :=
  ({ s with
      parts := s.parts ++ [s.nextId]
      nextId := s.nextId + 1
      addCalls := s.addCalls + 1 },
   s.nextId)

/-- `sectPr.add_headerReference(WD_HEADER_FOOTER.PRIMARY, rId)` on the
section at index `i`. -/
def add_headerReference (s : DocState) (i : Nat) (rId : Nat) : DocState :=
  { s with sects := updateAt s.sects i (fun p => { p with headerRef := some rId }) }

/-- `sectPr.remove_headerReference(WD_HEADER_FOOTER.PRIMARY)` on the section
at index `i`: removes the primary header reference and returns the removed
reference id. -/
def remove_headerReference (s : DocState) (i : Nat) : DocState × Option Nat :=
  ({ s with sects := updateAt s.sects i (fun p => { p with headerRef := none }) },
   get_headerReference s i)

/-- `document_part.drop_header_part(rId)`: discards the header part with the
given reference id; the call is logged in `dropCalls`. -/
def document_part_drop_header_part (s : DocState) (rId : Nat) : DocState :=
  { s with parts := s.parts.erase rId, dropCalls := s.dropCalls ++ [rId] }

/-- `document_part.header_part(rId)`: the header part for a reference id;
fails (propagated error) when no such part exists. -/
def document_part_header_part (s : DocState) (rId : Nat) : Option Nat :=
  if s.parts.contains rId then some rId else none

/-- `_Header._add_header_part`: add a header part via the document part,
record the fresh reference on this section's `sectPr`, and return the
newly-added header part. -/
def _add_header_part (s : DocState) (i : Nat) : DocState × Nat :=
  let sr := document_part_add_header_part s
  (add_headerReference sr.1 i sr.2, sr.2)

/-- `_Header._drop_header_part`: remove the header reference from this
section's `sectPr` and discard the now-orphaned part; fails when no
reference was present (the setter only calls it when one is). -/
def _drop_header_part (s : DocState) (i : Nat) : Option DocState :=
  let sr := remove_headerReference s i
  Option.map (document_part_drop_header_part sr.1) sr.2

/-- `_Header.is_linked_to_previous` (setter): no-op when the value is not
being changed; dropping the header part when linking, adding one when
unlinking. -/
def set_is_linked_to_previous (s : DocState) (i : Nat) (value : Bool) : Option DocState :=
  let new_state := value
  if new_state == header_is_linked_to_previous s i then
    some s
  else if new_state then
    _drop_header_part s i
  else
    some (_add_header_part s i).1

/-- `_Header._header_part`: the header part for this header's own
reference, looked up in the document part. -/
def _header_part (s : DocState) (i : Nat) : Option Nat :=
  (get_headerReference s i).bind (document_part_header_part s)

/-- `_Header._get_or_add_header_part`: case-1, this header has its own part;
case-2, it inherits and a prior header exists (`_prior_header` is the proxy
on `preceding_sectPr`, i.e. index `i - 1`), so resolve recursively on it;
case-3, it inherits but is the first header, so add a part for this
(first) section.  Returns the resulting state and the header part. -/
def _get_or_add_header_part (s : DocState) (i : Nat) : Option (DocState × Nat) :=
  if has_header_part s i then
    Option.map (fun part => (s, part)) (_header_part s i)
  else
    match i with
    | Nat.succ j => _get_or_add_header_part s j
    | 0 => some (_add_header_part s 0)

/-- A `Section` proxy as produced by the `Sections` sequence: identified by
the `sectPr` element it wraps (the document part collaborator is shared
document state, not per-section data). -/
structure Section where
  sectPr : SectPr
deriving Repr, DecidableEq

/-- `Sections.__len__`: the number of `sectPr` elements. -/
def Sections.length (s : DocState) : Nat :=
  s.sects.length

/-- `Sections.__getitem__` with an integer key: wrap
`document_elm.sectPr_lst[key]` in a `Section`; out-of-range access is an
`IndexError` from the list, propagated (`none`). -/
def Sections.getitem (s : DocState) (i : Nat) : Option Section :=
  Option.map Section.mk (s.sects.get? i)

/-- `Sections.__iter__`: yield a `Section` for each `sectPr` in
`sectPr_lst` order. -/
def Sections.iter (s : DocState) : List Section :=
  s.sects.map Section.mk

/-- The `_Header.is_linked_to_previous` read path in state-passing form:
the only collaborator call it makes is the `get_headerReference` query
(via `_has_header_part`); no part-store or reference mutation occurs. -/
def header_is_linked_to_previous_run (s : DocState) (i : Nat) : DocState × Bool :=
  let ref := get_headerReference s i
  (s, !ref.isSome)

/-- The `_Footer.is_linked_to_previous` read path in state-passing form:
the only collaborator call is the `get_footerReference` query (via
`_Footer._has_definition`). -/
def footer_is_linked_to_previous_run (s : DocState) (i : Nat) : DocState × Bool :=
  let ref := get_footerReference s i
  (s, !ref.isSome)

/-! Concrete document states used to exercise the definitions. -/

/-- A `sectPr` with a primary header reference (`rId` 1) and a primary
footer reference (`rId` 5). -/
def pDefined : SectPr :=
  { headerRef := some 1, footerRef := some 5 }

/-- A `sectPr` with no header or footer reference (linked state). -/
def pLinked : SectPr :=
  { headerRef := none, footerRef := none }

/-- Three sections in document order: A defined, B linked, C linked. -/
def sABC : DocState :=
  { sects := [pDefined, pLinked, pLinked], parts := [1], nextId := 6,
    dropCalls := [], addCalls := 0 }

/-- A single section with a header definition. -/
def sOne : DocState :=
  { sects := [pDefined], parts := [1], nextId := 6, dropCalls := [], addCalls := 0 }

/-- A single section with no header definition. -/
def sSingle : DocState :=
  { sects := [pLinked], parts := [], nextId := 0, dropCalls := [], addCalls := 0 }

/-! Helper lemmas about `updateAt`. -/

theorem get?_updateAt_self (xs : List SectPr) (i : Nat) (f : SectPr → SectPr) :
    (updateAt xs i f).get? i = Option.map f (xs.get? i) := by
  induction xs generalizing i with
  | nil => simp [updateAt]
  | cons x rest ih =>
    cases i with
    | zero => simp [updateAt]
    | succ j => simpa [updateAt] using ih j

/-- C5: for every Header and Footer proxy, `is_linked_to_previous` reads
true iff no explicit primary header (resp. footer) reference is present on
that section's properties element. -/
theorem linked_iff_no_reference (s : DocState) (i : Nat) (p : SectPr)
    (hp : s.sects.get? i = some p) :
    (header_is_linked_to_previous s i = true ↔ p.headerRef = none) ∧
    (footer_is_linked_to_previous s i = true ↔ p.footerRef = none) := by
  have hp' : s.sects[i]? = some p := by simpa [List.get?_eq_getElem?] using hp
  constructor
  · cases hh : p.headerRef <;>
      simp [header_is_linked_to_previous, has_header_part, get_headerReference, hp', hh]
  · cases hf : p.footerRef <;>
      simp [footer_is_linked_to_previous, footer_has_definition, get_footerReference, hp', hf]

/-- C5 witness: on the concrete document `sABC`, section 0 has a header
reference and is not linked; section 1 has none and is linked. -/
theorem linked_iff_no_reference_witness :
    sABC.sects.get? 1 = some pLinked ∧
    (header_is_linked_to_previous sABC 1 = true ↔ pLinked.headerRef = none) ∧
    (footer_is_linked_to_previous sABC 1 = true ↔ pLinked.footerRef = none) :=
  ⟨rfl, (linked_iff_no_reference sABC 1 pLinked rfl).1,
    (linked_iff_no_reference sABC 1 pLinked rfl).2⟩

/-- C7 counterexample: the claim says invoking the definition-check
capability `_has_definition` on a Header instance returns true iff a primary
header reference exists rather than raising; but on `sOne` (whose section 0
has header reference 1) a `_Header` instance inherits the base class's
raising `_has_definition`. -/
theorem header_has_definition_counterexample :
    (sOne.sects.get? 0).map SectPr.headerRef = some (some 1) ∧
    _has_definition HdrFtr.header sOne 0 =
      Except.error "must be implemented by each subclass" :=
  ⟨rfl, rfl⟩

/-- C7 amended: `_Footer` supplies `_has_definition`, returning true iff a
primary footer reference exists; `_Header` does not override
`_has_definition` (invoking it on a Header instance still raises the base
class's not-implemented error) and instead supplies the equivalent check as
`_has_header_part`, true iff a primary header reference exists. -/
theorem has_definition_capabilities (s : DocState) (i : Nat) (p : SectPr)
    (hp : s.sects.get? i = some p) :
    _has_definition HdrFtr.footer s i = Except.ok p.footerRef.isSome ∧
    has_header_part s i = p.headerRef.isSome ∧
    _has_definition HdrFtr.header s i = base_has_definition := by
  have hp' : s.sects[i]? = some p := by simpa [List.get?_eq_getElem?] using hp
  refine ⟨?_, ?_, rfl⟩
  · simp [_has_definition, footer_has_definition, get_footerReference, hp']
  · simp [has_header_part, get_headerReference, hp']

/-- C7 amended witness: evaluated on `sOne` at section 0. -/
theorem has_definition_capabilities_witness :
    sOne.sects.get? 0 = some pDefined ∧
    _has_definition HdrFtr.footer sOne 0 = Except.ok pDefined.footerRef.isSome ∧
    has_header_part sOne 0 = pDefined.headerRef.isSome ∧
    _has_definition HdrFtr.header sOne 0 = base_has_definition :=
  ⟨rfl, has_definition_capabilities sOne 0 pDefined rfl⟩

/-- C8: indexed access agrees with iteration (the i-th yielded Section wraps
the same `sectPr` element), and iteration yields the sections exactly in the
order of the underlying `sectPr_lst`. -/
theorem getitem_iter_agree (s : DocState) (i : Nat) :
    Sections.getitem s i = (Sections.iter s).get? i ∧
    List.map Section.sectPr (Sections.iter s) = s.sects := by
  constructor
  · simp [Sections.getitem, Sections.iter]
  · have hcomp : Section.sectPr ∘ Section.mk = id := rfl
    simp [Sections.iter, List.map_map, hcomp]

/-- C9: indexed access with any index at or beyond the number of sections
fails with an out-of-range error (propagated, not recovered). -/
theorem getitem_out_of_range (s : DocState) (i : Nat)
    (h : Sections.length s ≤ i) :
    Sections.getitem s i = none := by
  have hnone : s.sects.get? i = none := List.get?_eq_none.2 h
  simp [Sections.getitem, hnone]
  exact h

/-- C9 witness: `sOne` has one section and access at index 1 fails. -/
theorem getitem_out_of_range_witness :
    Sections.length sOne ≤ 1 ∧ Sections.getitem sOne 1 = none :=
  ⟨by decide, getitem_out_of_range sOne 1 (by decide)⟩

/-- C10: the `is_linked_to_previous` read paths, run in state-passing form,
return the document state unchanged (no part added or removed, no reference
or properties change, no part-store call) and compute exactly the linked
predicate. -/
theorem is_linked_read_pure (s : DocState) (i : Nat) :
    (header_is_linked_to_previous_run s i).1 = s ∧
    (header_is_linked_to_previous_run s i).2 = header_is_linked_to_previous s i ∧
    (footer_is_linked_to_previous_run s i).1 = s ∧
    (footer_is_linked_to_previous_run s i).2 = footer_is_linked_to_previous s i :=
  ⟨rfl, rfl, rfl, rfl⟩

/-! Helper lemmas about header references after `updateAt`. -/

theorem bind_headerRef_updateAt_none (xs : List SectPr) (i : Nat) (p : SectPr)
    (hp : xs.get? i = some p) :
    ((updateAt xs i (fun q => { q with headerRef := none })).get? i).bind SectPr.headerRef
      = none := by
  rw [get?_updateAt_self, hp]; rfl

theorem bind_headerRef_updateAt_some (xs : List SectPr) (i : Nat) (p : SectPr) (r : Nat)
    (hp : xs.get? i = some p) :
    ((updateAt xs i (fun q => { q with headerRef := some r })).get? i).bind SectPr.headerRef
      = some r := by
  rw [get?_updateAt_self, hp]; rfl

/-- C2: assigning True to `is_linked_to_previous` on a Header whose section
has an explicit definition (reference `r`) removes the primary header
reference, makes exactly one part-discard call with `r`, and afterwards
`has_definition` is false and `is_linked_to_previous` is true. -/
theorem set_linked_true_drops_part (s : DocState) (i : Nat) (p : SectPr) (r : Nat)
    (hp : s.sects.get? i = some p) (hr : p.headerRef = some r) :
    ∃ s', set_is_linked_to_previous s i true = some s' ∧
      s'.sects = updateAt s.sects i (fun q => { q with headerRef := none }) ∧
      s'.dropCalls = s.dropCalls ++ [r] ∧
      s'.parts = s.parts.erase r ∧
      has_header_part s' i = false ∧
      header_is_linked_to_previous s' i = true ∧
      s'.addCalls = s.addCalls ∧
      s'.nextId = s.nextId := by
  have hget : get_headerReference s i = some r := by
    simp [get_headerReference, hr, ((List.get?_eq_getElem? s.sects i).symm).trans hp]
  have hlink : header_is_linked_to_previous s i = false := by
    simp [header_is_linked_to_previous, has_header_part, hget]
  refine ⟨document_part_drop_header_part
      { s with sects := updateAt s.sects i (fun q => { q with headerRef := none }) } r,
    ?_, rfl, rfl, rfl, ?_, ?_, rfl, rfl⟩
  · simp [set_is_linked_to_previous, hlink, _drop_header_part, remove_headerReference, hget]
  · show (((updateAt s.sects i fun q => { q with headerRef := none }).get? i).bind
      SectPr.headerRef).isSome = false
    rw [bind_headerRef_updateAt_none s.sects i p hp]
    rfl
  · show (!(((updateAt s.sects i fun q => { q with headerRef := none }).get? i).bind
      SectPr.headerRef).isSome) = true
    rw [bind_headerRef_updateAt_none s.sects i p hp]
    rfl

/-- C2 witness: on `sOne`, whose only section holds header reference 1. -/
theorem set_linked_true_drops_part_witness :
    (sOne.sects.get? 0 = some pDefined ∧ pDefined.headerRef = some 1) ∧
    (∃ s', set_is_linked_to_previous sOne 0 true = some s' ∧
      s'.sects = updateAt sOne.sects 0 (fun q => { q with headerRef := none }) ∧
      s'.dropCalls = sOne.dropCalls ++ [1] ∧
      s'.parts = sOne.parts.erase 1 ∧
      has_header_part s' 0 = false ∧
      header_is_linked_to_previous s' 0 = true ∧
      s'.addCalls = sOne.addCalls ∧
      s'.nextId = sOne.nextId) :=
  ⟨⟨rfl, rfl⟩, set_linked_true_drops_part sOne 0 pDefined 1 rfl rfl⟩

/-- C3: assigning False to `is_linked_to_previous` when no definition exists
creates exactly one new header part via the part store, records the freshly
minted reference id on this section, and afterwards `has_definition` is
true; when a definition already exists the assignment is a no-op. -/
theorem set_linked_false_adds_part (s : DocState) (i : Nat) (p : SectPr)
    (hp : s.sects.get? i = some p) :
    (p.headerRef = none →
      ∃ s', set_is_linked_to_previous s i false = some s' ∧
        s'.addCalls = s.addCalls + 1 ∧
        s'.parts = s.parts ++ [s.nextId] ∧
        get_headerReference s' i = some s.nextId ∧
        has_header_part s' i = true ∧
        s'.dropCalls = s.dropCalls ∧
        s'.nextId = s.nextId + 1) ∧
    (∀ r, p.headerRef = some r → set_is_linked_to_previous s i false = some s) := by
  constructor
  · intro hnone
    have hget : get_headerReference s i = none := by
      simp [get_headerReference, hnone, ((List.get?_eq_getElem? s.sects i).symm).trans hp]
    have hlink : header_is_linked_to_previous s i = true := by
      simp [header_is_linked_to_previous, has_header_part, hget]
    refine ⟨(_add_header_part s i).1, ?_, rfl, rfl, ?_, ?_, rfl, rfl⟩
    · simp [set_is_linked_to_previous, hlink]
    · show ((updateAt s.sects i fun q => { q with headerRef := some s.nextId }).get? i).bind
        SectPr.headerRef = some s.nextId
      exact bind_headerRef_updateAt_some s.sects i p s.nextId hp
    · show (((updateAt s.sects i fun q => { q with headerRef := some s.nextId }).get? i).bind
        SectPr.headerRef).isSome = true
      rw [bind_headerRef_updateAt_some s.sects i p s.nextId hp]
      rfl
  · intro r hr
    have hget : get_headerReference s i = some r := by
      simp [get_headerReference, hr, ((List.get?_eq_getElem? s.sects i).symm).trans hp]
    have hlink : header_is_linked_to_previous s i = false := by
      simp [header_is_linked_to_previous, has_header_part, hget]
    simp [set_is_linked_to_previous, hlink]

/-- C3 witness: on `sSingle` (single linked section) the assignment creates
a part; on `sOne` (already defined) it is a no-op. -/
theorem set_linked_false_adds_part_witness :
    (sSingle.sects.get? 0 = some pLinked ∧ pLinked.headerRef = none ∧
      ∃ s', set_is_linked_to_previous sSingle 0 false = some s' ∧
        s'.addCalls = sSingle.addCalls + 1 ∧
        s'.parts = sSingle.parts ++ [sSingle.nextId] ∧
        get_headerReference s' 0 = some sSingle.nextId ∧
        has_header_part s' 0 = true ∧
        s'.dropCalls = sSingle.dropCalls ∧
        s'.nextId = sSingle.nextId + 1) ∧
    (sOne.sects.get? 0 = some pDefined ∧ pDefined.headerRef = some 1 ∧
      set_is_linked_to_previous sOne 0 false = some sOne) :=
  ⟨⟨rfl, rfl, (set_linked_false_adds_part sSingle 0 pLinked rfl).1 rfl⟩,
   ⟨rfl, rfl, (set_linked_false_adds_part sOne 0 pDefined rfl).2 1 rfl⟩⟩

/-- C6: for a first section (no preceding `sectPr`) with no header
definition, resolving header content creates a new header part and
reference for that section and returns that part; afterwards
`has_definition` on that section's header is true. -/
theorem first_section_materializes (s : DocState) (p : SectPr)
    (hp : s.sects.get? 0 = some p) (hnone : p.headerRef = none) :
    _get_or_add_header_part s 0 = some (_add_header_part s 0) ∧
    (_add_header_part s 0).2 = s.nextId ∧
    (_add_header_part s 0).1.parts = s.parts ++ [s.nextId] ∧
    (_add_header_part s 0).1.addCalls = s.addCalls + 1 ∧
    get_headerReference (_add_header_part s 0).1 0 = some s.nextId ∧
    has_header_part (_add_header_part s 0).1 0 = true := by
  have hget : get_headerReference s 0 = none := by
    simp [get_headerReference, hnone, ((List.get?_eq_getElem? s.sects 0).symm).trans hp]
  have hno : has_header_part s 0 = false := by
    simp [has_header_part, hget]
  refine ⟨?_, rfl, rfl, rfl, ?_, ?_⟩
  · unfold _get_or_add_header_part
    simp [hno]
  · show ((updateAt s.sects 0 fun q => { q with headerRef := some s.nextId }).get? 0).bind
      SectPr.headerRef = some s.nextId
    exact bind_headerRef_updateAt_some s.sects 0 p s.nextId hp
  · show (((updateAt s.sects 0 fun q => { q with headerRef := some s.nextId }).get? 0).bind
      SectPr.headerRef).isSome = true
    rw [bind_headerRef_updateAt_some s.sects 0 p s.nextId hp]
    rfl

/-- C6 witness: on `sSingle`, the single linked section. -/
theorem first_section_materializes_witness :
    (sSingle.sects.get? 0 = some pLinked ∧ pLinked.headerRef = none) ∧
    _get_or_add_header_part sSingle 0 = some (_add_header_part sSingle 0) ∧
    (_add_header_part sSingle 0).2 = sSingle.nextId ∧
    (_add_header_part sSingle 0).1.parts = sSingle.parts ++ [sSingle.nextId] ∧
    (_add_header_part sSingle 0).1.addCalls = sSingle.addCalls + 1 ∧
    get_headerReference (_add_header_part sSingle 0).1 0 = some sSingle.nextId ∧
    has_header_part (_add_header_part sSingle 0).1 0 = true :=
  ⟨⟨rfl, rfl⟩, first_section_materializes sSingle pLinked rfl rfl⟩

/-- C1: `_get_or_add_header_part` follows the three-case recursion: with an
explicit reference it returns this section's own header part; otherwise,
with a preceding section, it resolves the preceding section's header; and
for sections [A(defined), B(linked), C(linked)] resolving C and resolving B
both yield A's header part. -/
theorem header_resolution_cases (s : DocState) (i : Nat) :
    (has_header_part s i = true →
      _get_or_add_header_part s i = Option.map (fun part => (s, part)) (_header_part s i)) ∧
    (has_header_part s (i + 1) = false →
      _get_or_add_header_part s (i + 1) = _get_or_add_header_part s i) ∧
    (∀ a b c rA, s.sects = [a, b, c] → a.headerRef = some rA →
      s.parts.contains rA = true → b.headerRef = none → c.headerRef = none →
      _get_or_add_header_part s 2 = some (s, rA) ∧
      _get_or_add_header_part s 1 = some (s, rA)) := by
  have case1 : ∀ j, has_header_part s j = true →
      _get_or_add_header_part s j = Option.map (fun part => (s, part)) (_header_part s j) := by
    intro j h
    unfold _get_or_add_header_part
    simp [h]
  have case2 : ∀ j, has_header_part s (j + 1) = false →
      _get_or_add_header_part s (j + 1) = _get_or_add_header_part s j := by
    intro j h
    conv_lhs => unfold _get_or_add_header_part
    simp [h]
  refine ⟨case1 i, case2 i, ?_⟩
  intro a b c rA hs ha hparts hb hc
  have h2 : has_header_part s 2 = false := by
    simp [has_header_part, get_headerReference, hs, hc]
  have h1 : has_header_part s 1 = false := by
    simp [has_header_part, get_headerReference, hs, hb]
  have h0 : has_header_part s 0 = true := by
    simp [has_header_part, get_headerReference, hs, ha]
  have hres0 : _get_or_add_header_part s 0 = some (s, rA) := by
    rw [case1 0 h0]
    have hmem : rA ∈ s.parts := by simpa using hparts
    simp [_header_part, get_headerReference, document_part_header_part, hs, ha, hmem]
  rw [case2 1 h2, case2 0 h1, hres0]
  exact ⟨rfl, rfl⟩

/-- C1 witness: on `sABC` (A defined with reference 1, B and C linked),
resolving C (index 2) and B (index 1) both yield A's header part. -/
theorem header_resolution_cases_witness :
    (sABC.sects = [pDefined, pLinked, pLinked] ∧ pDefined.headerRef = some 1 ∧
      sABC.parts.contains 1 = true ∧ pLinked.headerRef = none) ∧
    (_get_or_add_header_part sABC 2 = some (sABC, 1) ∧
      _get_or_add_header_part sABC 1 = some (sABC, 1)) :=
  ⟨⟨rfl, rfl, rfl, rfl⟩,
    (header_resolution_cases sABC 0).2.2 pDefined pLinked pLinked 1 rfl rfl rfl rfl rfl⟩

/-- The state obtained from `sOne` by linking its only section's header:
reference removed, part 1 discarded (one drop call). -/
def sOneDropped : DocState :=
  { sects := [{ headerRef := none, footerRef := some 5 }], parts := [],
    nextId := 6, dropCalls := [1], addCalls := 0 }

/-- C4: assigning `is_linked_to_previous` its current value is a no-op (the
state, and hence the part store, references and call logs, is unchanged),
and assigning the same value twice in a row leaves the same state as
assigning it once (the second assignment is a no-op in both directions). -/
theorem set_linked_idempotent (s : DocState) (i : Nat) (v : Bool) (p : SectPr)
    (hp : s.sects.get? i = some p) :
    (header_is_linked_to_previous s i = v → set_is_linked_to_previous s i v = some s) ∧
    (∀ s', set_is_linked_to_previous s i v = some s' →
      set_is_linked_to_previous s' i v = some s') := by
  have noop : ∀ t : DocState, header_is_linked_to_previous t i = v →
      set_is_linked_to_previous t i v = some t := by
    intro t h
    simp [set_is_linked_to_previous, h]
  refine ⟨noop s, ?_⟩
  intro s' hset
  by_cases h : header_is_linked_to_previous s i = v
  · rw [noop s h] at hset
    obtain rfl := Option.some.inj hset
    exact noop s h
  · cases v with
    | true =>
      have hfalse : header_is_linked_to_previous s i = false := by
        cases hv : header_is_linked_to_previous s i
        · rfl
        · exact absurd hv h
      obtain ⟨r, hr⟩ : ∃ r, get_headerReference s i = some r := by
        have hsome : has_header_part s i = true := by
          simpa [header_is_linked_to_previous] using hfalse
        exact Option.isSome_iff_exists.mp hsome
      have hset' : set_is_linked_to_previous s i true =
          some (document_part_drop_header_part
            { s with sects := updateAt s.sects i (fun q => { q with headerRef := none }) } r) := by
        simp [set_is_linked_to_previous, hfalse, _drop_header_part, remove_headerReference, hr]
      rw [hset'] at hset
      obtain rfl := Option.some.inj hset
      apply noop
      show (!(((updateAt s.sects i fun q => { q with headerRef := none }).get? i).bind
        SectPr.headerRef).isSome) = true
      rw [bind_headerRef_updateAt_none s.sects i p hp]
      rfl
    | false =>
      have htrue : header_is_linked_to_previous s i = true := by
        cases hv : header_is_linked_to_previous s i
        · exact absurd hv h
        · rfl
      have hset' : set_is_linked_to_previous s i false = some (_add_header_part s i).1 := by
        simp [set_is_linked_to_previous, htrue]
      rw [hset'] at hset
      obtain rfl := Option.some.inj hset
      apply noop
      show (!(((updateAt s.sects i fun q => { q with headerRef := some s.nextId }).get? i).bind
        SectPr.headerRef).isSome) = false
      rw [bind_headerRef_updateAt_some s.sects i p s.nextId hp]
      rfl

/-- C4 witness: on `sOne`, assigning False (the current value) is a no-op,
and assigning True twice in a row yields the same state `sOneDropped` as
assigning it once. -/
theorem set_linked_idempotent_witness :
    (sOne.sects.get? 0 = some pDefined ∧
      header_is_linked_to_previous sOne 0 = false) ∧
    set_is_linked_to_previous sOne 0 false = some sOne ∧
    set_is_linked_to_previous sOne 0 true = some sOneDropped ∧
    set_is_linked_to_previous sOneDropped 0 true = some sOneDropped := by
  refine ⟨⟨rfl, by decide⟩, ?_, ?_, ?_⟩
  · exact (set_linked_idempotent sOne 0 false pDefined rfl).1 (by decide)
  · decide
  · exact (set_linked_idempotent sOne 0 true pDefined rfl).2 sOneDropped (by decide)
